import Mathlib

/-!
Shallow embedding of the PIM spreadsheet-to-CSV conversion pipeline
(`seed/map_pim.py` and `seed/map_pim_old.py`) and proofs about the
behaviour its specification claims.

Cells of the loaded spreadsheet are modelled by `Cell`: a value is either
`absent` (pandas NaN / Python None), a string, a rational number (numeric
cells; Python float arithmetic is modelled by exact rationals), or a
boolean.  A row is an association list from column name to cell; a column
missing from the row altogether is distinct from a column present with a
NaN cell, mirroring `pandas.Series.get`.

Python string primitives (`strip`, `split`, `replace`, `lower`,
lexicographic `<`) are re-implemented over `List Char` so that every
definition evaluates inside the kernel.
-/

/-! ### Python string primitives over character lists -/

/-- `str.strip()`: drop whitespace from both ends. -/
def trimChars (cs : List Char) : List Char :=
  ((cs.dropWhile Char.isWhitespace).reverse.dropWhile Char.isWhitespace).reverse

/-- `str.strip()` on a `String`. -/
def pyStrip (s : String) : String := ⟨trimChars s.data⟩

/-- `str.split(sep)` for a one-character separator: splits at every
occurrence, keeping empty pieces (`''.split(',') == ['']`). -/
def splitChar (sep : Char) : List Char → List (List Char)
  | [] => [[]]
  | c :: rest =>
      let r := splitChar sep rest
      if c = sep then [] :: r
      else
        match r with
        | [] => [[c]]
        | h :: t => (c :: h) :: t

/-- `str.split(sep, 1)` when `sep` occurs: the piece before the first
occurrence and everything after it; `none` when `sep` does not occur. -/
def splitFirst (sep : Char) : List Char → Option (List Char × List Char)
  | [] => none
  | c :: rest =>
      if c = sep then some ([], rest)
      else (splitFirst sep rest).map (fun p => (c :: p.1, p.2))

/-- `'sep'.join(pieces)` for strings. -/
def joinSep (sep : String) : List String → String
  | [] => ""
  | [s] => s
  | s :: rest => s ++ sep ++ joinSep sep rest

/-- Python lexicographic string comparison `a < b`, by code point. -/
def charListLt : List Char → List Char → Bool
  | [], [] => false
  | [], _ :: _ => true
  | _ :: _, [] => false
  | a :: as, b :: bs =>
      if a < b then true
      else if b < a then false
      else charListLt as bs

/-- Python `a < b` on strings. -/
def strLt (a b : String) : Bool := charListLt a.data b.data

/-! ### The cell / row data model -/

inductive Cell : Type where
  | absent : Cell
  | str : String → Cell
  | num : ℚ → Cell
  | boolean : Bool → Cell
deriving DecidableEq, Repr

/-- A source row: association list from column name to cell value. -/
abbrev Row : Type := List (String × Cell)

/-- `Series.get key` with no default: `none` when the column is missing. -/
def rowGet : Row → String → Option Cell
  | [], _ => none
  | (k, v) :: rest, key => if k = key then some v else rowGet rest key

/-- `Series.get key dflt`: the cell when the column exists (even a NaN cell),
otherwise the default. -/
def rowGetD (row : Row) (key : String) (dflt : Cell) : Cell :=
  (rowGet row key).getD dflt

/-- `pd.isna` on a cell: true exactly for NaN/None. -/
def Cell.isna : Cell → Bool
  | .absent => true
  | _ => false

/-- Python falsiness `not value` (used by `parse_rating`): the empty string,
the number 0 and `False` are falsy.  `absent` also models `None` (falsy);
a NaN float is truthy in Python but `parse_rating` sends both to NaN
anyway, so `absent` is treated as falsy here. -/
def Cell.falsy : Cell → Bool
  | .absent => true
  | .str s => s = ""
  | .num q => q = 0
  | .boolean b => !b

/-- Python `str(value)` on a cell.  The numeric rendering is a simplified
model of `str(float)` (no claim in this development depends on the exact
rendering of a numeric cell as text). -/
def Cell.pyStr : Cell → String
  | .absent => "nan"
  | .str s => s
  | .num q => if q.den = 1 then toString q.num ++ ".0" else toString q.num ++ "/" ++ toString q.den
  | .boolean b => if b then "True" else "False"

/-! ### Text sanitizer: `clean_html`

`clean_html` deletes every `<...>` tag whose name is not on the allow-list,
via `re.sub` with the pattern
`<(?!/?(?:b|/b|i|/i|...)\b)[^>]*>` (the alternatives are `tag[1:-1]` for
each entry of `allowed_tags`, so closing forms `/b`, `/i`, ... appear both
through the alternatives and through the leading `/?`).

`re.sub` semantics, reproduced exactly: scanning left to right, at each
`<` the negative lookahead is evaluated; if the following text starts with
an allowed (optionally `/`-prefixed) tag name followed by a word boundary,
the `<` is kept and scanning resumes at the next character; otherwise
`[^>]*>` consumes everything up to and including the first following `>`
(the whole tag is deleted and scanning resumes after the `>`), and when no
`>` follows at all there is no match, so the rest of the text — in which no
further match can start, since every match needs a `>` — is kept verbatim.
-/

/-- Word character for the regex `\b` boundary (ASCII model of `\w`). -/
def wordChar (c : Char) : Bool := c.isAlphanum || c = '_'

/-- `tag[1:-1]` for each entry of `allowed_tags` in `clean_html`. -/
def tagAlternatives : List (List Char) :=
  ["b", "/b", "i", "/i", "strong", "/strong", "em", "/em", "br",
   "ul", "/ul", "li", "/li", "p", "/p", "a", "/a", "span", "/span",
   "h1", "/h1", "h2", "/h2", "h3", "/h3", "div", "/div", "img", "hr"].map String.data

/-- Does `cs` start with the literal `p` followed by a word boundary?  (All
alternatives end in a word character, so the boundary holds exactly when
the next character is absent or not a word character.) -/
def altMatch (p cs : List Char) : Bool :=
  cs.take p.length = p &&
    (match cs.drop p.length with
     | [] => true
     | c :: _ => !wordChar c)

/-- The regex lookahead `/?(?:alt1|alt2|...)\b` succeeds on the text after a
`<`: the tag is allowed and the `<` is preserved. -/
def matchesAllowed (cs : List Char) : Bool :=
  tagAlternatives.any (fun a => altMatch a cs || altMatch ('/' :: a) cs)

/-- One left-to-right `re.sub` pass deleting disallowed tags.  The first
argument holds, in reverse, the characters consumed since the `<` that
opened a candidate disallowed tag (`none` when scanning normally); if the
input ends before a closing `>` those characters were not part of a match
and are restored. -/
def auxStrip : Option (List Char) → List Char → List Char
  | none, [] => []
  | some buf, [] => buf.reverse
  | none, c :: rest =>
      if c = '<' then
        if matchesAllowed rest then c :: auxStrip none rest
        else auxStrip (some [c]) rest
      else c :: auxStrip none rest
  | some buf, c :: rest =>
      if c = '>' then auxStrip none rest
      else auxStrip (some (c :: buf)) rest

/-- `re.sub(cleanr, '', s)` for the disallowed-tag pattern of `clean_html`. -/
def stripTags (cs : List Char) : List Char := auxStrip none cs

/-- `clean_html` on a cell: NaN/None yields `''`, otherwise the string form
of the cell with disallowed tags removed. -/
def clean_html (c : Cell) : String :=
  if c.isna then "" else ⟨stripTags c.pyStr.data⟩

/-- `clean_html` restricted to genuine strings (the sanitizer of the spec). -/
def sanitize (s : String) : String := ⟨stripTags s.data⟩

/-! ### Rating parser: `parse_rating` -/

/-- Value of a digit string, most significant first. -/
def digitsVal (ds : List Char) : ℕ := ds.foldl (fun n c => 10 * n + (c.toNat - 48)) 0

/-- Python `float(s)` on an already-stripped string, modelled for the
decimal forms `[+-]? (digits [. digits?] | . digits)`.  (Exponent and
inf/nan spellings are not modelled; no input in this development uses
them.)  `none` models the `ValueError` branch.  The value is assembled
with `Rat.divInt` — exact rational division of the integer and fractional
digit values — which equals `intVal + fracVal / 10 ^ fracLen`. -/
def parseFloat (s : String) : Option ℚ :=
  let cs := s.data
  let signAndRest : Bool × List Char :=
    match cs with
    | '-' :: r => (true, r)
    | '+' :: r => (false, r)
    | r => (false, r)
  let neg := signAndRest.1
  let rest := signAndRest.2
  let intPart := rest.takeWhile Char.isDigit
  let rest2 := rest.drop intPart.length
  let finish : ℚ → Option ℚ := fun v => some (if neg then -v else v)
  match rest2 with
  | [] => if intPart.isEmpty then none else finish (Rat.divInt (digitsVal intPart) 1)
  | '.' :: frac =>
      if frac.all Char.isDigit && !(intPart.isEmpty && frac.isEmpty) then
        finish (Rat.divInt (digitsVal intPart * 10 ^ frac.length + digitsVal frac) (10 ^ frac.length))
      else none
  | _ => none

/-- Exact model of Python's `value * 100` on a rational, in a form the
kernel evaluates (`Rat.mul` is irreducible); `scale100_eq` states equality
with `q * 100`. -/
def scale100 (q : ℚ) : ℚ := Rat.divInt (q.num * 100) q.den

theorem scale100_eq (q : ℚ) : scale100 q = q * 100 := by
  unfold scale100
  rw [Rat.divInt_eq_div]
  push_cast
  rw [mul_div_right_comm, Rat.num_div_den]

/-- `parse_rating` of `seed/map_pim.py` (lines 19–55).  `none` models the
`float('nan')` result.  Bools reach the numeric branch (`isinstance(True,
int)` holds in Python): `False` is falsy, `True` behaves as the number 1,
which the `0 < 1 ≤ 1` rule scales to 100.  Strings have every `%` removed
and surrounding whitespace stripped before `float` conversion; a parsed
value `v` with `0 < v ≤ 1` is scaled by 100, any other parsed value passes
through unchanged. -/
def parse_rating (value : Cell) : Option ℚ :=
  if value.falsy || value.isna then none
  else
    match value with
    | .absent => none
    | .num q => if 0 < q ∧ q ≤ 1 then some (scale100 q) else some q
    | .boolean _ => some 100
    | .str s =>
        match parseFloat ⟨trimChars ((s.data.filter (· ≠ '%')))⟩ with
        | none => none
        | some v => if 0 < v ∧ v ≤ 1 then some (scale100 v) else some v

/-- `parse_rating` of `seed/map_pim_old.py` (lines 17–26): no `pd.isna`
guard (a NaN float still falls through the numeric branch and returns NaN),
and the scaling condition is `value <= 1` — zero is caught by falsiness,
but negative numbers are scaled by 100 as well. -/
def parse_rating_old (value : Cell) : Option ℚ :=
  if value.falsy then none
  else
    match value with
    | .absent => none
    | .num q => if q ≤ 1 then some (scale100 q) else some q
    | .boolean _ => some 100
    | .str s =>
        match parseFloat ⟨trimChars ((s.data.filter (· ≠ '%')))⟩ with
        | none => none
        | some v => if v ≤ 1 then some (scale100 v) else some v


/-! ### Facet folder -/

/-- Insert into a strictly sorted list, skipping an element already present.
Folding this over a list yields Python's `sorted(set(...))`. -/
def insertSorted (s : String) : List String → List String
  | [] => [s]
  | x :: xs =>
      if strLt s x then s :: x :: xs
      else if s = x then x :: xs
      else x :: insertSorted s xs

/-- `sorted(set(l))` for Python strings. -/
def sortedUnique (l : List String) : List String :=
  l.foldl (fun acc s => insertSorted s acc) []

/-- The fragments one raw facet cell contributes in `process_facets` of
`seed/map_pim_old.py`: the cell is split on commas, each part stripped;
a part with a colon is split on the first colon into key and value list,
the value list split on commas, each value stripped and rejoined with `|`
(the value list can no longer contain a comma after the outer split); a
part without a colon becomes `unknown:<part>`. -/
def facetFragments (raw : String) : List String :=
  (splitChar ',' raw.data).map (fun part =>
    let part := trimChars part
    match splitFirst ':' part with
    | some kv =>
        let vals := (splitChar ',' kv.2).map (fun v => (⟨trimChars v⟩ : String))
        (⟨kv.1⟩ : String) ++ ":" ++ joinSep "|" vals
    | none => "unknown:" ++ (⟨part⟩ : String))

/-- `process_facets` of `seed/map_pim_old.py` (lines 91–107): fragments
from every facet column are accumulated into a set (cells that are NaN or
whose stripped lower-case text is `nan` are skipped) and the set is
emitted sorted, joined with `|`. -/
def process_facets_old (row : Row) (facetCols : List String) : String :=
  let emitted := facetCols.foldl (fun acc col =>
    let raw := rowGetD row col (Cell.str "")
    if raw.isna then acc
    else
      let rawS := trimChars raw.pyStr.data
      if rawS.map Char.toLower = "nan".data then acc
      else acc ++ facetFragments ⟨rawS⟩) []
  joinSep "|" (sortedUnique emitted)

/-- Trim the later pieces of a `|`-split: interior pieces on both sides,
the last piece on its left side only. -/
def trimTailPieces : List (List Char) → List (List Char)
  | [] => []
  | [last] => [last.dropWhile Char.isWhitespace]
  | p :: r => trimChars p :: trimTailPieces r

/-- `re.sub(r'\s*\|\s*', '|', s)`: delete whitespace adjacent to each `|`.
Modelled by splitting on `|`, trimming each piece on the side(s) that touch
a `|`, and rejoining. -/
def trimAroundPipes (cs : List Char) : List Char :=
  match splitChar '|' cs with
  | [] => cs
  | [single] => single
  | first :: rest =>
      List.intercalate ['|']
        (((first.reverse.dropWhile Char.isWhitespace).reverse) :: trimTailPieces rest)

/-- `process_facets` of `seed/map_pim.py` (lines 127–137): read the single
`Facets` cell, NaN yields `''`, otherwise strip the text and delete
whitespace around pipes. -/
def process_facets (row : Row) : String :=
  let facets := rowGetD row "Facets" (Cell.str "")
  if facets.isna then ""
  else ⟨trimAroundPipes (trimChars facets.pyStr.data)⟩

/-! ### Value normalizer: `clean_and_convert` (`seed/map_pim.py` 146–192)

The dynamic `data_type` dispatch is embedded as one Lean function per
target type actually used by the mapped fields under study (`string` /
`relation` coincide; `float`). -/

/-- `clean_and_convert(row, key, 'string')` (also `'relation'`): missing
column or NaN cell yields `''`, otherwise `str(value).strip()`. -/
def cleanStr (row : Row) (key : String) : String :=
  match rowGet row key with
  | none => ""
  | some .absent => ""
  | some c => pyStrip c.pyStr

/-- Round to an integer, ties to even (`decimal` default rounding). -/
def roundHalfEven (x : ℚ) : ℤ :=
  let f := ⌊x⌋
  let r := x - (f : ℚ)
  if r < 1 / 2 then f
  else if 1 / 2 < r then f + 1
  else if f % 2 = 0 then f else f + 1

/-- `Decimal(v).quantize(Decimal('0.00001'))`: round to 5 decimal places. -/
def quantize5 (q : ℚ) : ℚ := Rat.divInt (roundHalfEven (q * 100000)) 100000

/-- `clean_and_convert(row, key, 'float')`: missing column or NaN yields
the `''` sentinel (`none`); a string is filtered to digits, dots and minus
signs then parsed as a decimal; the value is rounded to 5 decimal places.
A parse failure (`InvalidOperation`) also yields the sentinel. -/
def cleanFloat (row : Row) (key : String) : Option ℚ :=
  match rowGet row key with
  | none => none
  | some .absent => none
  | some (.str s) =>
      match parseFloat ⟨s.data.filter (fun c => c.isDigit || c = '.' || c = '-')⟩ with
      | none => none
      | some v => some (quantize5 v)
  | some (.num q) => some (quantize5 q)
  | some (.boolean b) => some (quantize5 (if b then 1 else 0))

/-! ### Row mapper and group expander, `seed/map_pim.py` (lines 338–501)

The script writes ~90 output columns per record; the embedded `Record`
carries the fields the specification's claims constrain.  `price` is
`Option ℚ` — `none` models the `''` sentinel of `clean_and_convert`. -/

structure Record where
  name : String
  slug : String
  description : String
  assets : String
  facets : String
  sku : String
  price : Option ℚ
  taxCategory : String
  stockOnHand : ℕ
  trackInventory : Bool
deriving DecidableEq, Repr

/-- One output record from one source row (`first` is the loop's
`first_row` flag): product-identity fields are populated only on the first
row of a group and emitted as `''` on every other row; `sku`, `price` and
`taxCategory` come from the row unconditionally; `stockOnHand` is the
constant `999999` and `trackInventory` the constant `True` (lines
363–367). -/
def mapRow (first : Bool) (row : Row) : Record where
  name := if first then cleanStr row "name" else ""
  slug := if first then cleanStr row "slug" else ""
  description := if first then clean_html (rowGetD row "product:shortdescription HTML:en" (Cell.str "")) else ""
  assets := if first then cleanStr row "assets" else ""
  facets := if first then process_facets row else ""
  sku := cleanStr row "sku"
  price := cleanFloat row "price"
  taxCategory := cleanStr row "taxCategory"
  stockOnHand := 999999
  trackInventory := true

/-- A loaded spreadsheet: rows in file order. -/
abbrev Table : Type := List Row

/-- The grouping key of a row: its `slug` cell.  `pandas.groupby` keys are
modelled for string-valued slug cells; a missing or NaN slug yields `none`
and the row belongs to no group (`groupby` drops NaN keys — its default
`dropna=True`). -/
def slugOf (row : Row) : Option String :=
  match rowGet row "slug" with
  | some (Cell.str s) => some s
  | _ => none

/-- The distinct group keys in ascending order — `pandas.groupby` iterates
groups sorted by key (its default `sort=True`), not in order of first
appearance. -/
def sortedKeys (tbl : Table) : List String :=
  (tbl.filterMap slugOf).foldl (fun acc s => insertSorted s acc) []

/-- The rows of one group, in source order. -/
def groupRows (tbl : Table) (k : String) : List Row :=
  tbl.filter (fun r => slugOf r = some k)

/-- The `for _, row in group.iterrows()` loop with its `first_row` flag:
the first row of the group is mapped as the primary record and every
following row as a variant, unconditionally. -/
def processGroup : List Row → List Record
  | [] => []
  | r :: rs => mapRow true r :: rs.map (mapRow false)

/-- `convert_source_to_products` of `seed/map_pim.py` (lines 195–517),
restricted to its in-memory core: group the rows by `slug` (sorted keys,
NaN keys dropped), and concatenate each group's records. -/
def convert_source_to_products (tbl : Table) : List Record :=
  (sortedKeys tbl).bind (fun k => processGroup (groupRows tbl k))

/-! ### Row mapper of the historical variant, `seed/map_pim_old.py`
(lines 131–203).  Fields that the old script copies raw from the row
(`price`, `taxCategory`, `stockOnHand`, `assets`) are kept as cells. -/

structure RecordOld where
  name : String
  slug : String
  description : String
  assets : Cell
  facets : String
  sku : String
  price : Cell
  taxCategory : Cell
  stockOnHand : Cell
  trackInventory : Bool
deriving DecidableEq, Repr

/-- One output record of the old pipeline: `row.get('price', 0)`,
`row.get('taxCategory', 'standard')` and `row.get('stockOnHand', 100)`
default only when the column is missing; `trackInventory` is `False`. -/
def mapRowOld (facetCols : List String) (first : Bool) (row : Row) : RecordOld where
  name := if first then (rowGetD row "name" (Cell.str "")).pyStr else ""
  slug := if first then (rowGetD row "slug" (Cell.str "")).pyStr else ""
  description := if first then clean_html (rowGetD row "product:shortdescription HTML" (Cell.str "")) else ""
  assets := if first then rowGetD row "assets" (Cell.str "") else Cell.str ""
  facets := if first then process_facets_old row facetCols else ""
  sku := (rowGetD row "sku" (Cell.str "")).pyStr
  price := rowGetD row "price" (Cell.num 0)
  taxCategory := rowGetD row "taxCategory" (Cell.str "standard")
  stockOnHand := rowGetD row "stockOnHand" (Cell.num 100)
  trackInventory := false

/-- The old pipeline's group loop (same grouping and `first_row` logic). -/
def processGroupOld (facetCols : List String) : List Row → List RecordOld
  | [] => []
  | r :: rs => mapRowOld facetCols true r :: rs.map (mapRowOld facetCols false)

/-- `convert_source_to_products` of `seed/map_pim_old.py`, in-memory core. -/
def convert_source_to_products_old (facetCols : List String) (tbl : Table) : List RecordOld :=
  (sortedKeys tbl).bind (fun k => processGroupOld facetCols (groupRows tbl k))

/-! ### Rating bars: `parse_and_process_bars` (`seed/map_pim.py` 60–95) -/

structure BarRec where
  name : String
  visible : Bool
  rating : Option ℚ
  minLabel : String
  maxLabel : String
  min : String
  max : String
deriving DecidableEq, Repr

/-- The tab-specific default labels for bar `i` (1-based): tab 1 gives
Beginner/Expert to bar 1 and Soft/Stiff to bar 2; everything else is
empty. -/
def barLabels (tabId : Option ℕ) (i : ℕ) : String × String :=
  if tabId = some 1 then
    if i = 1 then ("Beginner", "Expert")
    else if i = 2 then ("Soft", "Stiff")
    else ("", "")
  else ("", "")

/-- One loop iteration of `parse_and_process_bars`: fetch the raw value
(default `'Missing Key'`, which parses to NaN), parse the rating, derive
visibility (`not isna and rating > 0`), and emit the bar record — rating
and labels blanked when not visible, `min`/`max` the constants `'10'` and
`'100'` always. -/
def mkBar (row : Row) (tabId : Option ℕ) (i : ℕ) (info : String × String) : BarRec :=
  let raw := rowGetD row info.2 (Cell.str "Missing Key")
  let rating := parse_rating raw
  let visible := match rating with
    | some q => decide (0 < q)
    | none => false
  let labels := barLabels tabId i
  { name := info.1
    visible := visible
    rating := if visible then rating else none
    minLabel := if visible then labels.1 else ""
    maxLabel := if visible then labels.2 else ""
    min := "10"
    max := "100" }

/-- `should_tab_be_visible`: a tab is visible iff any of its bars is. -/
def should_tab_be_visible (bars : List BarRec) : Bool := bars.any (·.visible)

/-- `parse_and_process_bars`: one bar per `(bar_name, source_key)` entry,
with 1-based enumeration, plus the tab-visibility flag. -/
def parse_and_process_bars (row : Row) (barInfo : List (String × String)) (tabId : Option ℕ) :
    List BarRec × Bool :=
  let bars := barInfo.enum.map (fun p => mkBar row tabId (p.1 + 1) p.2)
  (bars, should_tab_be_visible bars)


/-! ### Order lemmas for the grouping machinery -/

theorem charListLt_cons_true {a0 b0 : Char} {as bs : List Char}
    (h : charListLt (a0 :: as) (b0 :: bs) = true) :
    a0 < b0 ∨ (a0 = b0 ∧ charListLt as bs = true) := by
  simp only [charListLt] at h
  by_cases h1 : a0 < b0
  · exact Or.inl h1
  · rw [if_neg h1] at h
    by_cases h2 : b0 < a0
    · rw [if_pos h2] at h; cases h
    · rw [if_neg h2] at h
      exact Or.inr ⟨le_antisymm (not_lt.mp h2) (not_lt.mp h1), h⟩

theorem charListLt_cons_false {a0 b0 : Char} {as bs : List Char}
    (h : charListLt (a0 :: as) (b0 :: bs) = false) :
    b0 < a0 ∨ (a0 = b0 ∧ charListLt as bs = false) := by
  simp only [charListLt] at h
  by_cases h1 : a0 < b0
  · rw [if_pos h1] at h; cases h
  · rw [if_neg h1] at h
    by_cases h2 : b0 < a0
    · exact Or.inl h2
    · rw [if_neg h2] at h
      exact Or.inr ⟨le_antisymm (not_lt.mp h2) (not_lt.mp h1), h⟩

theorem charListLt_cons_of_lt {a0 b0 : Char} {as bs : List Char} (h : a0 < b0) :
    charListLt (a0 :: as) (b0 :: bs) = true := by
  simp [charListLt, h]

theorem charListLt_cons_of_eq {a0 : Char} {as bs : List Char} (h : charListLt as bs = true) :
    charListLt (a0 :: as) (a0 :: bs) = true := by
  simp [charListLt, lt_irrefl, h]

theorem charListLt_trans : ∀ (a b c : List Char),
    charListLt a b = true → charListLt b c = true → charListLt a c = true := by
  intro a
  induction a with
  | nil =>
    intro b c hab hbc
    cases b with
    | nil => simp [charListLt] at hab
    | cons b0 bs =>
      cases c with
      | nil => simp [charListLt] at hbc
      | cons c0 cs => simp [charListLt]
  | cons a0 as ih =>
    intro b c hab hbc
    cases b with
    | nil => simp [charListLt] at hab
    | cons b0 bs =>
      cases c with
      | nil => simp [charListLt] at hbc
      | cons c0 cs =>
        rcases charListLt_cons_true hab with h1 | ⟨h1, hab1⟩ <;>
          rcases charListLt_cons_true hbc with h2 | ⟨h2, hbc1⟩
        · exact charListLt_cons_of_lt (lt_trans h1 h2)
        · exact charListLt_cons_of_lt (h2 ▸ h1)
        · exact charListLt_cons_of_lt (h1 ▸ h2)
        · subst h1; subst h2
          exact charListLt_cons_of_eq (ih bs cs hab1 hbc1)

theorem charListLt_flip : ∀ (a b : List Char),
    charListLt a b = false → a ≠ b → charListLt b a = true := by
  intro a
  induction a with
  | nil =>
    intro b hab hne
    cases b with
    | nil => exact absurd rfl hne
    | cons b0 bs => simp [charListLt] at hab
  | cons a0 as ih =>
    intro b hab hne
    cases b with
    | nil => simp [charListLt]
    | cons b0 bs =>
      rcases charListLt_cons_false hab with h1 | ⟨h1, hab1⟩
      · exact charListLt_cons_of_lt h1
      · subst h1
        have hne1 : as ≠ bs := fun h => hne (by rw [h])
        exact charListLt_cons_of_eq (ih bs hab1 hne1)

theorem strLt_trans {a b c : String} (hab : strLt a b = true) (hbc : strLt b c = true) :
    strLt a c = true :=
  charListLt_trans a.data b.data c.data hab hbc

theorem strLt_flip {a b : String} (hab : strLt a b = false) (hne : a ≠ b) :
    strLt b a = true := by
  refine charListLt_flip a.data b.data hab (fun h => hne ?_)
  cases a; cases b; exact congrArg String.mk h

theorem mem_insertSorted {y s : String} : ∀ {l : List String},
    y ∈ insertSorted s l → y = s ∨ y ∈ l := by
  intro l
  induction l with
  | nil => intro h; simp [insertSorted] at h; exact Or.inl h
  | cons x xs ih =>
    intro h
    simp only [insertSorted] at h
    by_cases h1 : strLt s x = true
    · rw [if_pos h1] at h
      rcases List.mem_cons.mp h with h | h
      · exact Or.inl h
      · exact Or.inr h
    · rw [if_neg h1] at h
      by_cases h2 : s = x
      · rw [if_pos h2] at h; exact Or.inr h
      · rw [if_neg h2] at h
        rcases List.mem_cons.mp h with h | h
        · exact Or.inr (by simp [h])
        · rcases ih h with h | h
          · exact Or.inl h
          · exact Or.inr (List.mem_cons_of_mem x h)

theorem pairwise_insertSorted (s : String) :
    ∀ (l : List String), l.Pairwise (fun a b => strLt a b = true) →
      (insertSorted s l).Pairwise (fun a b => strLt a b = true) := by
  intro l
  induction l with
  | nil => intro _; simp [insertSorted]
  | cons x xs ih =>
    intro h
    rcases List.pairwise_cons.mp h with ⟨hx, hxs⟩
    simp only [insertSorted]
    by_cases h1 : strLt s x = true
    · rw [if_pos h1]
      refine List.pairwise_cons.mpr ⟨?_, h⟩
      intro y hy
      rcases List.mem_cons.mp hy with rfl | hy
      · exact h1
      · exact strLt_trans h1 (hx y hy)
    · rw [if_neg h1]
      by_cases h2 : s = x
      · rw [if_pos h2]; exact h
      · rw [if_neg h2]
        refine List.pairwise_cons.mpr ⟨?_, ih hxs⟩
        intro y hy
        rcases mem_insertSorted hy with rfl | hy
        · exact strLt_flip (Bool.not_eq_true _ ▸ eq_false_of_ne_true h1) h2
        · exact hx y hy

theorem pairwise_foldl_insertSorted :
    ∀ (l : List String) (acc : List String),
      acc.Pairwise (fun a b => strLt a b = true) →
      (l.foldl (fun acc s => insertSorted s acc) acc).Pairwise (fun a b => strLt a b = true) := by
  intro l
  induction l with
  | nil => intro acc h; exact h
  | cons x xs ih =>
    intro acc h
    exact ih (insertSorted x acc) (pairwise_insertSorted x acc h)

theorem sortedKeys_pairwise (tbl : Table) :
    (sortedKeys tbl).Pairwise (fun a b => strLt a b = true) :=
  pairwise_foldl_insertSorted _ [] (List.Pairwise.nil)

/-! ### Helper lemmas about the group expander -/

theorem processGroup_length : ∀ g : List Row, (processGroup g).length = g.length := by
  intro g
  cases g with
  | nil => rfl
  | cons r rs => simp [processGroup]

theorem processGroup_map_sku :
    ∀ g : List Row, (processGroup g).map Record.sku = g.map (fun r => cleanStr r "sku") := by
  intro g
  cases g with
  | nil => rfl
  | cons r rs =>
    simp only [processGroup, List.map_cons, List.map_map]
    rfl

theorem map_sku_bind (tbl : Table) :
    ∀ ks : List String,
      ((ks.bind (fun k => processGroup (groupRows tbl k))).map Record.sku) =
        (ks.bind (fun k => groupRows tbl k)).map (fun r => cleanStr r "sku") := by
  intro ks
  induction ks with
  | nil => rfl
  | cons k ks ih =>
    simp only [List.cons_bind, List.map_append, processGroup_map_sku, ih]

theorem filterMap_slugOf_filter :
    ∀ tbl : Table,
      (tbl.filter (fun r => (slugOf r).isSome)).filterMap slugOf = tbl.filterMap slugOf := by
  intro tbl
  induction tbl with
  | nil => rfl
  | cons r rest ih =>
    cases h : slugOf r with
    | none => simp [List.filter, List.filterMap, h, ih]
    | some s => simp [List.filter, List.filterMap, h, ih]

theorem groupRows_filter :
    ∀ (tbl : Table) (k : String),
      groupRows (tbl.filter (fun r => (slugOf r).isSome)) k = groupRows tbl k := by
  intro tbl k
  induction tbl with
  | nil => rfl
  | cons r rest ih =>
    unfold groupRows at *
    cases h : slugOf r with
    | none => simp [List.filter, h, ih]
    | some s => simp [List.filter, h, ih]

/-! ### Claim theorems -/

/-- Claim C1, counterexample.  The claim says no two output records of one
run share a SKU, collisions being resolved with an incrementing numeric
suffix.  The code has no collision handling: two rows of the same group
carrying the same explicit `sku` cell `"S"` are emitted as two records
whose SKUs are both `"S"` (so the output SKU list is not duplicate-free). -/
theorem c1_counterexample :
    ((convert_source_to_products
        [[("slug", Cell.str "a"), ("sku", Cell.str "S")],
         [("slug", Cell.str "a"), ("sku", Cell.str "S")]]).map Record.sku = ["S", "S"])
      ∧ ¬ ((convert_source_to_products
        [[("slug", Cell.str "a"), ("sku", Cell.str "S")],
         [("slug", Cell.str "a"), ("sku", Cell.str "S")]]).map Record.sku).Nodup := by
  constructor
  · decide
  · decide

/-- Claim C1, amended.  Every emitted record's SKU is exactly the cleaned
`sku` cell of its source row (`str(value).strip()`, `''` when missing or
NaN): no uniqueness set is consulted and no suffix is ever appended, so
duplicate input SKUs yield duplicate output SKUs. -/
theorem c1_sku_passthrough (tbl : Table) :
    (convert_source_to_products tbl).map Record.sku =
      ((sortedKeys tbl).bind (fun k => groupRows tbl k)).map (fun r => cleanStr r "sku") :=
  map_sku_bind tbl (sortedKeys tbl)

/-- Claim C2, counterexample.  Two rows share slug `"board-x"`; only the
second has a non-blank `name` (`"X"`).  The claim says the second row
becomes the primary record, its identity fields populated.  The code
unconditionally maps the FIRST row of the group as primary: both emitted
records have a blank `name` and the record mapped from the named row is a
variant (no record carries the name `"X"`). -/
theorem c2_counterexample :
    ((convert_source_to_products
        [[("slug", Cell.str "board-x"), ("sku", Cell.str "S1")],
         [("slug", Cell.str "board-x"), ("name", Cell.str "X"), ("sku", Cell.str "S2")]]).map
          Record.name = ["", ""])
      ∧ ((convert_source_to_products
        [[("slug", Cell.str "board-x"), ("sku", Cell.str "S1")],
         [("slug", Cell.str "board-x"), ("name", Cell.str "X"), ("sku", Cell.str "S2")]]).map
          Record.sku = ["S1", "S2"]) := by
  constructor
  · decide
  · decide

/-- Claim C2, amended.  Within a group the primary record is mapped from
the first row of the group unconditionally — no check that its `name` is
present or non-blank — and every other row is mapped as a variant whose
identity fields (`name`, `slug`, `description`, `assets`, `facets`) are
emitted blank. -/
theorem c2_first_row_primary (tbl : Table) (k : String) (r : Row) (rs : List Row)
    (h : groupRows tbl k = r :: rs) :
    processGroup (groupRows tbl k) = mapRow true r :: rs.map (mapRow false)
      ∧ ∀ v ∈ rs.map (mapRow false),
          v.name = "" ∧ v.slug = "" ∧ v.description = "" ∧ v.assets = "" ∧ v.facets = "" := by
  constructor
  · rw [h]; rfl
  · intro v hv
    rcases List.mem_map.mp hv with ⟨row, _, rfl⟩
    exact ⟨rfl, rfl, rfl, rfl, rfl⟩

/-- Claim C2, witness for the amended theorem at a concrete two-row group. -/
theorem c2_witness :
    (groupRows
        [[("slug", Cell.str "g"), ("sku", Cell.str "S1")],
         [("slug", Cell.str "g"), ("name", Cell.str "X"), ("sku", Cell.str "S2")]] "g"
      = [[("slug", Cell.str "g"), ("sku", Cell.str "S1")],
         [("slug", Cell.str "g"), ("name", Cell.str "X"), ("sku", Cell.str "S2")]])
    ∧ (processGroup (groupRows
        [[("slug", Cell.str "g"), ("sku", Cell.str "S1")],
         [("slug", Cell.str "g"), ("name", Cell.str "X"), ("sku", Cell.str "S2")]] "g")
        = mapRow true [("slug", Cell.str "g"), ("sku", Cell.str "S1")]
            :: [[("slug", Cell.str "g"), ("name", Cell.str "X"), ("sku", Cell.str "S2")]].map (mapRow false)
      ∧ ∀ v ∈ [[("slug", Cell.str "g"), ("name", Cell.str "X"), ("sku", Cell.str "S2")]].map (mapRow false),
          v.name = "" ∧ v.slug = "" ∧ v.description = "" ∧ v.assets = "" ∧ v.facets = "") :=
  ⟨by decide,
   c2_first_row_primary
     [[("slug", Cell.str "g"), ("sku", Cell.str "S1")],
      [("slug", Cell.str "g"), ("name", Cell.str "X"), ("sku", Cell.str "S2")]]
     "g"
     [("slug", Cell.str "g"), ("sku", Cell.str "S1")]
     [[("slug", Cell.str "g"), ("name", Cell.str "X"), ("sku", Cell.str "S2")]]
     (by decide)⟩

/-- Claim C3, counterexample.  A one-row group whose row has no `name`
cell at all: the claim says the group is skipped (zero records, one
warning).  The code emits one record for it — mapped as primary with blank
name — and never skips a group. -/
theorem c3_counterexample :
    (convert_source_to_products [[("slug", Cell.str "g"), ("sku", Cell.str "S")]]).length = 1
      ∧ (convert_source_to_products [[("slug", Cell.str "g"), ("sku", Cell.str "S")]]).map
          Record.name = [""] := by
  constructor
  · decide
  · decide

/-- Claim C3, amended.  No group is ever skipped: every group contributes
exactly one output record per row, whether or not any row has a non-blank
`name` (and the code emits no missing-primary warning at all). -/
theorem c3_no_group_skipped (g : List Row) : (processGroup g).length = g.length :=
  processGroup_length g

/-- Claim C4, counterexample.  Two rows with slugs `"b"` then `"a"` (SKUs
`"1"` then `"2"`): the claim says output follows input order, but
`groupby` iterates groups in ascending key order, so the record of the
second input row is emitted first. -/
theorem c4_counterexample :
    (convert_source_to_products
        [[("slug", Cell.str "b"), ("sku", Cell.str "1")],
         [("slug", Cell.str "a"), ("sku", Cell.str "2")]]).map Record.sku = ["2", "1"] := by
  decide

/-- Claim C4, amended.  Groups are iterated in strictly ascending order of
the grouping key (`pandas.groupby` sorts keys; it does not preserve first
appearance), rows within a group are iterated in source order (each group
is a sublist of the input), and the output is the concatenation of the
groups' records in that key order. -/
theorem c4_sorted_group_order :
    (∀ tbl : Table, (sortedKeys tbl).Pairwise (fun a b => strLt a b = true))
      ∧ (∀ (tbl : Table) (k : String), (groupRows tbl k).Sublist tbl)
      ∧ (∀ tbl : Table, convert_source_to_products tbl
          = (sortedKeys tbl).bind (fun k => processGroup (groupRows tbl k))) :=
  ⟨sortedKeys_pairwise, fun tbl _ => List.filter_sublist tbl, fun _ => rfl⟩

/-- Claim C5, counterexample.  A single row whose `slug` cell is NaN: the
claim says it lands in a shared empty-string group and is processed; in
fact `groupby` (default `dropna=True`) drops NaN keys, so the conversion
emits no record at all for it. -/
theorem c5_counterexample :
    convert_source_to_products [[("slug", Cell.absent), ("name", Cell.str "X"),
        ("sku", Cell.str "S")]] = [] := by
  decide

/-- Claim C5, amended.  Rows whose grouping key is absent or NaN are
dropped, not grouped: removing them from the input leaves the output
unchanged. -/
theorem c5_nan_slug_dropped (tbl : Table) :
    convert_source_to_products (tbl.filter (fun r => (slugOf r).isSome)) =
      convert_source_to_products tbl := by
  unfold convert_source_to_products sortedKeys
  rw [filterMap_slugOf_filter]
  exact List.bind_congr (fun k _ => by rw [groupRows_filter])

/-- Claim C6, counterexample.  The claim says a numeric 0 passes through
unchanged and that only a trailing `%` is stripped from strings.  In the
code `parse_rating(0)` hits the falsiness guard and returns NaN (absent),
not 0; `replace('%','')` removes every `%`, so the non-numeric-looking
`"4%5"` parses to 45 instead of being absent; and the old variant scales
negative numbers (claimed unchanged) by 100. -/
theorem c6_counterexample :
    parse_rating (Cell.num 0) = none
      ∧ parse_rating (Cell.num 0) ≠ some 0
      ∧ parse_rating (Cell.str "4%5") = some 45
      ∧ parse_rating_old (Cell.num (Rat.divInt (-1) 2)) = some (-50) := by
  refine ⟨by decide, by decide, by decide, by decide⟩

/-- Claim C6, amended.  For numeric `v` the current `parse_rating` returns
absent when `v = 0` (falsiness guard), `v * 100` when `0 < v ≤ 1`, and `v`
unchanged otherwise (negative values included); for strings EVERY `%`
character is removed (not only a trailing one) and whitespace stripped
before the numeric rule is applied, so `"4%5"` parses as 45; absent, empty
or unparseable input yields absent.  The old variant additionally scales
every value `≤ 1`, negatives included. -/
theorem c6_rating_rule :
    (∀ q : ℚ, parse_rating (Cell.num q) =
        if q = 0 then none
        else if 0 < q ∧ q ≤ 1 then some (q * 100)
        else some q)
      ∧ parse_rating (Cell.str "4%5") = some 45
      ∧ parse_rating (Cell.str "") = none
      ∧ parse_rating Cell.absent = none
      ∧ parse_rating (Cell.str "board") = none
      ∧ parse_rating_old (Cell.num (Rat.divInt (-1) 2)) = some (-50) := by
  refine ⟨?_, by decide, by decide, by decide, by decide, by decide⟩
  intro q
  by_cases h0 : q = 0
  · simp [parse_rating, Cell.falsy, Cell.isna, h0]
  · simp only [parse_rating, Cell.falsy, Cell.isna, h0]
    simp [scale100_eq]

/-- Claim C7, counterexample.  The sanitizer is not idempotent: on
`"<a<x>b>"` the first pass keeps the leading `<` (the lookahead sees the
allowed tag name `a`), deletes the inner `<x>`, and yields `"<ab>"` —
in which `ab` is no longer an allowed tag name, so a second pass deletes
the whole remaining text. -/
theorem c7_counterexample :
    sanitize (sanitize "<a<x>b>") ≠ sanitize "<a<x>b>" := by
  decide

theorem auxStrip_no_lt : ∀ l : List Char, '<' ∉ l → auxStrip none l = l := by
  intro l
  induction l with
  | nil => intro _; rfl
  | cons c rest ih =>
    intro h
    have hc : c ≠ '<' := fun hc => h (hc ▸ List.mem_cons_self c rest)
    have hrest : '<' ∉ rest := fun hr => h (List.mem_cons_of_mem c hr)
    simp only [auxStrip, if_neg (fun hlt => hc hlt)]
    rw [ih hrest]

/-- Claim C7, amended.  The sanitizer is idempotent on every string that
contains no `<` character (such a string is a fixed point); it is NOT
idempotent in general, because deleting a disallowed tag can splice the
surrounding text into a new removable tag (see the counterexample). -/
theorem c7_idempotent_no_tag (s : String) (h : '<' ∉ s.data) :
    sanitize (sanitize s) = sanitize s := by
  have hfix : sanitize s = s := by
    cases s with
    | mk l => exact congrArg String.mk (auxStrip_no_lt l h)
  rw [hfix]
  exact hfix

/-- Claim C7, witness for the amended theorem on a tag-free string. -/
theorem c7_witness :
    '<' ∉ "hello".data ∧ sanitize (sanitize "hello") = sanitize "hello" :=
  ⟨by decide, c7_idempotent_no_tag "hello" (by decide)⟩

/-- Claim C8, counterexample.  The claim predicts
`"unknown:red|size:M|L"` for a facet cell `"red, size:M,L"`.  The code
first splits the whole cell on commas (so `"L"` is its own colon-free
part, emitted under the `unknown` key), then deduplicates and SORTS the
fragments, producing `"size:M|unknown:L|unknown:red"`. -/
theorem c8_counterexample :
    process_facets_old [("facets.1", Cell.str "red, size:M,L")] ["facets.1"]
      ≠ "unknown:red|size:M|L" := by
  decide

/-- Claim C8, amended.  Folding a facet cell `"red, size:M,L"` yields
`"size:M|unknown:L|unknown:red"`: the cell is split on commas into
`red` / `size:M` / `L`; a part with a colon is split at the first colon
(its value list can no longer contain a comma); a part without a colon is
emitted under the sentinel key `unknown`; the fragments are deduplicated
and emitted in sorted order joined by `|`. -/
theorem c8_facet_fold :
    process_facets_old [("facets.1", Cell.str "red, size:M,L")] ["facets.1"]
      = "size:M|unknown:L|unknown:red" := by
  decide

/-- Claim C9, counterexample.  A row with no `price`, `taxCategory` or
`stockOnHand` columns, mapped by the current pipeline: the emitted record
has the `''` sentinel (not 0) for price, `''` (not `"standard"`) for
taxCategory, and the constant 999999 (not 100) for stockOnHand. -/
theorem c9_counterexample :
    (convert_source_to_products [[("slug", Cell.str "p"), ("name", Cell.str "N")]]).map
        (fun r => (r.price, r.taxCategory, r.stockOnHand)) = [(none, "", 999999)] := by
  decide

/-- Claim C9, amended.  The claimed defaults (`price=0`,
`taxCategory="standard"`, `stockOnHand=100`) are those of the OLD pipeline
(`map_pim_old.py`, `row.get` defaults); the current pipeline
(`map_pim.py`) emits the `''` sentinel for a missing `price` and
`taxCategory` and the constant 999999 for `stockOnHand`. -/
theorem c9_defaults (facetCols : List String) (first : Bool) (row : Row)
    (hp : rowGet row "price" = none) (ht : rowGet row "taxCategory" = none)
    (hs : rowGet row "stockOnHand" = none) :
    ((mapRowOld facetCols first row).price = Cell.num 0
      ∧ (mapRowOld facetCols first row).taxCategory = Cell.str "standard"
      ∧ (mapRowOld facetCols first row).stockOnHand = Cell.num 100)
    ∧ ((mapRow first row).price = none
      ∧ (mapRow first row).taxCategory = ""
      ∧ (mapRow first row).stockOnHand = 999999) := by
  refine ⟨⟨?_, ?_, ?_⟩, ⟨?_, ?_, ?_⟩⟩ <;>
    simp [mapRow, mapRowOld, rowGetD, cleanFloat, cleanStr, hp, ht, hs]

/-- Claim C9, witness for the amended theorem at a concrete row with no
price/taxCategory/stockOnHand columns. -/
theorem c9_witness :
    (rowGet [("name", Cell.str "N")] "price" = none
      ∧ rowGet [("name", Cell.str "N")] "taxCategory" = none
      ∧ rowGet [("name", Cell.str "N")] "stockOnHand" = none)
    ∧ (((mapRowOld [] true [("name", Cell.str "N")]).price = Cell.num 0
        ∧ (mapRowOld [] true [("name", Cell.str "N")]).taxCategory = Cell.str "standard"
        ∧ (mapRowOld [] true [("name", Cell.str "N")]).stockOnHand = Cell.num 100)
      ∧ ((mapRow true [("name", Cell.str "N")]).price = none
        ∧ (mapRow true [("name", Cell.str "N")]).taxCategory = ""
        ∧ (mapRow true [("name", Cell.str "N")]).stockOnHand = 999999)) :=
  ⟨⟨by decide, by decide, by decide⟩,
   c9_defaults [] true [("name", Cell.str "N")] (by decide) (by decide) (by decide)⟩

/-- Claim C10 (confirmed).  For every row and every bar produced by
`parse_and_process_bars`: the bar's name is the configured bar name and
its `min`/`max` fields are the constants `'10'`/`'100'` regardless of
visibility; the bar is invisible exactly when its parsed rating is absent
or not greater than zero; and an invisible bar's Rating, MinLabel and
MaxLabel are all emitted blank. -/
theorem c10_bar_fields (row : Row) (barInfo : List (String × String)) (tabId : Option ℕ)
    (i : ℕ) (bar : BarRec)
    (h : (parse_and_process_bars row barInfo tabId).1[i]? = some bar) :
    ∃ e, barInfo[i]? = some e
      ∧ bar.name = e.1
      ∧ bar.min = "10"
      ∧ bar.max = "100"
      ∧ (bar.visible = false
          ↔ ∀ q, parse_rating (rowGetD row e.2 (Cell.str "Missing Key")) = some q → q ≤ 0)
      ∧ (bar.visible = false → bar.rating = none ∧ bar.minLabel = "" ∧ bar.maxLabel = "") := by
  have hbars : (parse_and_process_bars row barInfo tabId).1
      = barInfo.enum.map (fun p => mkBar row tabId (p.1 + 1) p.2) := rfl
  rw [hbars, List.getElem?_map] at h
  cases he : barInfo[i]? with
  | none => simp [List.getElem?_enum, he] at h
  | some e =>
    simp only [List.getElem?_enum, he, Option.map_some'] at h
    obtain rfl : bar = mkBar row tabId (i + 1) e := (Option.some.inj h).symm
    refine ⟨e, rfl, rfl, rfl, rfl, ?_, ?_⟩
    · cases hr : parse_rating (rowGetD row e.2 (Cell.str "Missing Key")) with
      | none => simp [mkBar, hr]
      | some v =>
        simp [mkBar, hr, decide_eq_false_iff_not, not_lt]
    · intro hv
      cases hr : parse_rating (rowGetD row e.2 (Cell.str "Missing Key")) with
      | none => simp [mkBar, hr]
      | some v =>
        simp only [mkBar, hr] at hv ⊢
        simp only [hv]
        exact ⟨rfl, rfl, rfl⟩

/-- Claim C10, witness: a bar over an empty row (missing source column),
whose rating is absent, hence invisible with blank rating and labels but
name `"Powder"` and min/max `'10'`/`'100'`. -/
theorem c10_witness :
    ((parse_and_process_bars [] [("Powder", "variant:Powder")] (some 2)).1[0]?
        = some ⟨"Powder", false, none, "", "", "10", "100"⟩)
    ∧ ∃ e, [("Powder", "variant:Powder")][0]? = some e
        ∧ (BarRec.mk "Powder" false none "" "" "10" "100").name = e.1
        ∧ (BarRec.mk "Powder" false none "" "" "10" "100").min = "10"
        ∧ (BarRec.mk "Powder" false none "" "" "10" "100").max = "100"
        ∧ ((BarRec.mk "Powder" false none "" "" "10" "100").visible = false
            ↔ ∀ q, parse_rating (rowGetD [] e.2 (Cell.str "Missing Key")) = some q → q ≤ 0)
        ∧ ((BarRec.mk "Powder" false none "" "" "10" "100").visible = false
            → (BarRec.mk "Powder" false none "" "" "10" "100").rating = none
              ∧ (BarRec.mk "Powder" false none "" "" "10" "100").minLabel = ""
              ∧ (BarRec.mk "Powder" false none "" "" "10" "100").maxLabel = "") :=
  ⟨by decide,
   c10_bar_fields [] [("Powder", "variant:Powder")] (some 2) 0
     (BarRec.mk "Powder" false none "" "" "10" "100") (by decide)⟩
